import Mathlib

/-!
Verification of `add_labels.py`, a one-off maintenance script that inserts
accessibility-label annotations into three Swift source files.

The script has two core operations:

* pattern rules (lines 21-22, 33-43, 63): `content = re.sub(pattern, replacement, content)`
  applied for each rule in list order against the current content;
* positional rules (lines 83-85): `for line_no, text in sorted(inserts, reverse=True):
  if line_no < len(lines): lines.insert(line_no, text)`.

We embed the script shallowly.  Python's `re` is modelled by a small regex
engine covering exactly the constructs the script's patterns use: literal
characters, the `\s` character class (ASCII whitespace), greedy `+` and `*`
quantifiers over those, and numbered capture groups, with Python's
leftmost-first greedy backtracking semantics and `re.sub`'s global
non-overlapping replacement with back-reference resolution in the template.
Strings are `List Char`.  All definitions are structural (fuel-based where
needed) so that concrete runs evaluate inside `decide`/`rfl`.
-/

/-- Regular-expression abstract syntax: the subset of Python `re` used by the
script (`eps` empty, literal char, `\s`, concatenation, capture group, greedy
`*` and `+`). -/
inductive RE where
  | eps : RE
  | lit : Char → RE
  | wsp : RE
  | cat : RE → RE → RE
  | group : Nat → RE → RE
  | star : RE → RE
  | plus : RE → RE
deriving Repr, DecidableEq

/-- Python `\s` on the script's ASCII sources: space, tab, newline, carriage
return, vertical tab, form feed. -/
def isPySpace (c : Char) : Bool :=
  c = ' ' || c = '\t' || c = '\n' || c = '\x0d' || c = Char.ofNat 11 || c = Char.ofNat 12

/-- Capture environment: group number paired with captured text; the most
recent binding of a group (head-first) wins, matching Python where the last
match of a group is reported. -/
def Captures : Type := List (Nat × List Char)

/-- Look up a capture group (most recent binding first). -/
def getCap (n : Nat) (caps : Captures) : Option (List Char) :=
  match caps with
  | [] => none
  | (m, v) :: rest => if m = n then some v else getCap n rest

/-- Concatenation of the results of a list-valued function, preserving order:
the backtracking alternatives of a match, in priority order. -/
def bindList (l : List α) (f : α → List β) : List β :=
  l.foldr (fun a acc => f a ++ acc) []

/-- Size of a regex, used only to compute a sufficient fuel bound. -/
def reSize : RE → Nat
  | .eps => 1
  | .lit _ => 1
  | .wsp => 1
  | .cat a b => reSize a + reSize b + 1
  | .group _ a => reSize a + 1
  | .star a => reSize a + 1
  | .plus a => reSize a + 1

/-- Backtracking matcher.  `mtchF fuel r s caps` returns, in Python's
preference order (greedy, leftmost-first), every way `r` can match a prefix of
`s`: each result is the remaining suffix together with the updated captures.
A `star` iteration must consume at least one character (its bodies in the
script, `\s`, cannot match empty), so fuel `(reSize r + 2) * (s.length + 2)`
is never exhausted in practice. -/
def mtchF : Nat → RE → List Char → Captures → List (List Char × Captures)
  | 0, _, _, _ => []
  | _ + 1, .eps, s, caps => [(s, caps)]
  | _ + 1, .lit c, s, caps =>
      match s with
      | [] => []
      | c' :: s' => if c' = c then [(s', caps)] else []
  | _ + 1, .wsp, s, caps =>
      match s with
      | [] => []
      | c' :: s' => if isPySpace c' then [(s', caps)] else []
  | fuel + 1, .cat a b, s, caps =>
      bindList (mtchF fuel a s caps) (fun r => mtchF fuel b r.1 r.2)
  | fuel + 1, .group n a, s, caps =>
      (mtchF fuel a s caps).map
        (fun r => (r.1, (n, s.take (s.length - r.1.length)) :: r.2))
  | fuel + 1, .star a, s, caps =>
      bindList ((mtchF fuel a s caps).filter (fun r => r.1.length < s.length))
        (fun r => mtchF fuel (.star a) r.1 r.2) ++ [(s, caps)]
  | fuel + 1, .plus a, s, caps =>
      bindList (mtchF fuel a s caps) (fun r => mtchF fuel (.star a) r.1 r.2)

/-- Fuel sufficient for the matcher on the script's patterns. -/
def matchFuel (r : RE) (s : List Char) : Nat :=
  (reSize r + 2) * (s.length + 2)

/-- Try to match `r` at the start of `s`; Python's backtracking engine commits
to the first (most preferred) alternative. -/
def tryMatch (r : RE) (s : List Char) : Option (List Char × Captures) :=
  (mtchF (matchFuel r s) r s []).head?

/-- One item of a replacement template after Python's template parsing
(`\1` back-references resolved, `\n` and `\\` escapes already decoded). -/
inductive TmplItem where
  | str : List Char → TmplItem
  | ref : Nat → TmplItem
deriving Repr, DecidableEq

/-- A parsed replacement template. -/
def Tmpl : Type := List TmplItem

/-- Instantiate a template with the captures of a match (an unmatched group
renders empty; every group the script references is always bound). -/
def instTmpl (t : Tmpl) (caps : Captures) : List Char :=
  match t with
  | [] => []
  | .str cs :: rest => cs ++ instTmpl rest caps
  | .ref n :: rest => (getCap n caps).getD [] ++ instTmpl rest caps

/-- The scan of `re.sub`: at each position try a match; on a non-empty match
emit the instantiated template and continue after it; on an empty match emit
the template, copy one character and continue; on no match copy one character.
Fuel `s.length + 1` always suffices since every recursive call shortens `s`. -/
def subScanF (r : RE) (tmpl : Tmpl) : Nat → List Char → List Char
  | 0, s => s
  | fuel + 1, s =>
      match tryMatch r s with
      | some (rest, caps) =>
          if rest.length < s.length then
            instTmpl tmpl caps ++ subScanF r tmpl fuel rest
          else
            match s with
            | [] => instTmpl tmpl caps
            | c :: s' => instTmpl tmpl caps ++ c :: subScanF r tmpl fuel s'
      | none =>
          match s with
          | [] => []
          | c :: s' => c :: subScanF r tmpl fuel s'

/-- Python `re.sub(pattern, replacement, content)`: global, non-overlapping,
leftmost, with back-references resolved. -/
def reSub (r : RE) (tmpl : Tmpl) (s : List Char) : List Char :=
  subScanF r tmpl (s.length + 1) s

/-- The loop of lines 21-22 of `add_labels.py`:
`for pattern, replacement in replacements: content = re.sub(...)`. -/
def applyPatternRules : List Char → List (RE × Tmpl) → List Char
  | content, [] => content
  | content, (p, t) :: rest => applyPatternRules (reSub p t content) rest

/-- `tryMatch` fails at every position of `s` (the pattern has no match
anywhere in the content). -/
def noMatch (r : RE) : List Char → Bool
  | [] => (tryMatch r []).isNone
  | c :: s' => (tryMatch r (c :: s')).isNone && noMatch r s'

/-- How many rules of the list matched the current content at the moment they
were applied (the script applies each rule to the result of the previous
ones). -/
def matchedCount : List Char → List (RE × Tmpl) → Nat
  | _, [] => 0
  | c, (p, t) :: rest =>
      (if noMatch p c then 0 else 1) + matchedCount (reSub p t c) rest

/-! ### Positional rules (SettingsView.swift, lines 71-88) -/

/-- Python `list.insert(i, x)`: places `x` at index `i`, before the element
currently there (clamping to append when `i` exceeds the length). -/
def pyInsert (i : Nat) (x : α) (l : List α) : List α :=
  l.take i ++ x :: l.drop i

/-- Lexicographic strict order on char lists: Python string `<`. -/
def strLt : List Char → List Char → Bool
  | [], [] => false
  | [], _ :: _ => true
  | _ :: _, [] => false
  | a :: as, b :: bs => a < b || (a = b && strLt as bs)

/-- Python tuple comparison `(i, s) > (j, t)` on `(int, str)` pairs. -/
def pairGt (a b : Nat × List Char) : Bool :=
  b.1 < a.1 || (a.1 = b.1 && strLt b.2 a.2)

/-- Insert into a descending-sorted list, keeping earlier (original-order)
elements before equal later ones: the stability of Python `sorted`. -/
def insertD (x : Nat × List Char) : List (Nat × List Char) → List (Nat × List Char)
  | [] => [x]
  | y :: ys => if pairGt y x then y :: insertD x ys else x :: y :: ys

/-- Python `sorted(inserts, reverse=True)`: stable descending sort by the
`(line_no, text)` pair. -/
def sortDesc : List (Nat × List Char) → List (Nat × List Char)
  | [] => []
  | x :: xs => insertD x (sortDesc xs)

/-- The loop body of lines 83-85: for each `(line_no, text)` in the given
order, insert when `line_no < len(lines)` (the current length), else skip. -/
def applyInserts : List (List Char) → List (Nat × List Char) → List (List Char)
  | lines, [] => lines
  | lines, (i, t) :: rest =>
      applyInserts (if i < lines.length then pyInsert i t lines else lines) rest

/-- The whole positional-rule operation of lines 83-85: sort the insert list
descending, then run the guarded insertion loop. -/
def applyPositionalRules (lines : List (List Char)) (ins : List (Nat × List Char)) :
    List (List Char) :=
  applyInserts lines (sortDesc ins)

/-- Variant of the loop whose guard compares against a fixed length `n`
(the original file's line count) instead of the current one. -/
def applyInsertsOrig (n : Nat) : List (List Char) → List (Nat × List Char) → List (List Char)
  | lines, [] => lines
  | lines, (i, t) :: rest =>
      applyInsertsOrig n (if i < n then pyInsert i t lines else lines) rest

/-! ### The script's concrete rule lists -/

/-- A Lean string as a char list. -/
def strL (s : String) : List Char := s.toList

/-- A regex matching a fixed literal string. -/
def litRE (s : String) : RE := (s.toList.map RE.lit).foldr RE.cat RE.eps

/-- Concatenation of a list of regexes. -/
def catAll (l : List RE) : RE := l.foldr RE.cat RE.eps

/-- Greedy `\s+`. -/
def wsPlus : RE := RE.plus RE.wsp

/-- Greedy `\s*`. -/
def wsStar : RE := RE.star RE.wsp

/-- The apostrophe character (code point 39). -/
def apos : Char := Char.ofNat 39

/-- Closing brace character (code point 125), written `\x7d` in strings. -/
def rbrace : Char := Char.ofNat 125

/-- The ten `replacements` for HUDView.swift (lines 8-19 of the script),
each Python raw-string pattern and template decoded into the embedding
(`\.`→`.`, `\(`→`(`, `\s+`→`wsPlus`, template `\1`→`ref 1`, `\n`→newline,
`\\(`→ literal `\(`). -/
def hudReplacements : List (RE × Tmpl) :=
  [ (RE.group 1 (litRE ".foregroundStyle(headlineColor)"),
     [TmplItem.ref 1, TmplItem.str (strL "\n          .accessibilityLabel(\"Status: \\(manager.snapshot.headline)\")")]),
    (RE.group 1 (catAll [litRE "Text(sub)", wsPlus, litRE ".font(.subheadline)", wsPlus,
        litRE ".foregroundStyle(.secondary)"]),
     [TmplItem.ref 1, TmplItem.str (strL "\n            .accessibilityLabel(sub)")]),
    (RE.cat (RE.group 1 (litRE ".padding(.top, 4)"))
        (RE.group 2 (catAll [wsPlus, RE.lit rbrace])),
     [TmplItem.ref 1,
      TmplItem.str (strL "\n            .accessibilityHint(\"Press Command-R to retry the operation\")"),
      TmplItem.ref 2]),
    (RE.group 1 (catAll [litRE "AudioLevelMeterView(level: manager.audioLevel, width: 100, height: 4)",
        wsPlus, litRE ".padding(.top, 2)"]),
     [TmplItem.ref 1, TmplItem.str (strL "\n          .accessibilityLabel(\"Audio level meter\")\n          .accessibilityValue(\"\\(Int(manager.audioLevel * 100)) percent\")")]),
    (RE.group 1 (catAll [litRE "Text(elapsedText)", wsPlus,
        litRE ".font(.caption.monospacedDigit())", wsPlus, litRE ".foregroundStyle(.secondary)"]),
     [TmplItem.ref 1, TmplItem.str (strL "\n          .accessibilityLabel(\"Elapsed time: \\(elapsedText)\")")]),
    (RE.group 1 (litRE ".animation(.easeInOut(duration: 0.2), value: isFinal)"),
     [TmplItem.ref 1, TmplItem.str (strL "\n        .accessibilityLabel(isFinal ? \"Transcript: \\(text)\" : \"Partial transcript: \\(text)\")")]),
    (RE.group 1 (catAll [litRE "Capsule()", wsPlus, litRE ".fill(.quaternary)", wsPlus, litRE ")"]),
     [TmplItem.ref 1, TmplItem.str (strL "\n          .accessibilityLabel(\"Confidence: \\(Int(confidence * 100)) percent\")")]),
    (RE.group 1 (catAll [litRE "Image(systemName: \"exclamationmark.triangle.fill\")", wsPlus,
        litRE ".font(.system(size: 32, weight: .bold))", wsPlus,
        litRE ".foregroundStyle(phaseColor.gradient)", wsPlus,
        litRE ".scaleEffect(scale)", wsPlus,
        litRE ".shadow(color: phaseColor.opacity(0.45), radius: 10, x: 0, y: 6)"]),
     [TmplItem.ref 1, TmplItem.str (strL "\n          .accessibilityLabel(\"Error indicator\")")]),
    (RE.group 1 (catAll [litRE "Image(systemName: \"checkmark.circle.fill\")", wsPlus,
        litRE ".font(.system(size: 28, weight: .semibold))", wsPlus,
        litRE ".foregroundStyle(phaseColor)", wsPlus,
        litRE ".shadow(color: phaseColor.opacity(0.3), radius: 6, x: 0, y: 4)"]),
     [TmplItem.ref 1, TmplItem.str (strL "\n        .accessibilityLabel(\"Success indicator\")")]),
    (RE.group 1 (catAll [litRE "Circle()", wsPlus, litRE ".fill(phaseColor.gradient)", wsPlus,
        litRE ".frame(width: 18, height: 18)", wsPlus, litRE ".scaleEffect(scale)", wsPlus,
        litRE ".shadow(color: phaseColor.opacity(0.4), radius: 6, x: 0, y: 4)"]),
     [TmplItem.ref 1, TmplItem.str (strL "\n          .accessibilityLabel(\"Recording status indicator\")")]) ]

/-- MainView substitution 1 (lines 33-37): pattern. -/
def mainPat1 : RE :=
  RE.group 1 (catAll [litRE ".speakTooltip(\"Start or stop a recording from anywhere in Speak. We",
    RE.lit apos, litRE "ll let you know when we", RE.lit apos, litRE "re listening.\")"])

/-- MainView substitution 1: template. -/
def mainTmpl1 : Tmpl :=
  [TmplItem.ref 1, TmplItem.str (strL "\n      .accessibilityLabel(accessibilityLabelForRecordButton)")]

/-- MainView substitution 2 (lines 39-43): pattern. -/
def mainPat2 : RE :=
  RE.group 1 (catAll [litRE ".strokeBorder(.secondary.opacity(0.3), lineWidth: 0.5)", wsPlus, litRE ")"])

/-- MainView substitution 2: template. -/
def mainTmpl2 : Tmpl :=
  [TmplItem.ref 1, TmplItem.str (strL "\n      .accessibilityLabel(\"Current mode: \\(environment.settings.transcriptionMode.displayName)\")")]

/-- MainView substitution 3 (line 63): pattern `\}\s*\n\s*// @Implement ...`. -/
def mainPat3 : RE :=
  catAll [RE.lit rbrace, wsStar, RE.lit '\n', wsStar,
    litRE "// @Implement This is the main app container"]

/-- The `helper` replacement text of lines 45-61 (no escapes, so the template
is a single literal). -/
def helperText : List Char :=
  strL "\n  \n  private var accessibilityLabelForRecordButton: String \x7b\n    switch environment.main.state \x7b\n    case .idle, .completed(_), .failed(_):\n      return \"Start recording\"\n    case .recording:\n      return \"Stop recording\"\n    case .processing:\n      return \"Processing recording\"\n    case .delivering:\n      return \"Delivering transcription\"\n    \x7d\n  \x7d\n\x7d\n\n// @Implement This is the main app container"

/-- MainView substitution 3: template. -/
def mainTmpl3 : Tmpl := [TmplItem.str helperText]

/-- The `inserts` list for SettingsView.swift (lines 75-81). -/
def settingsInserts : List (Nat × List Char) :=
  [ (254, strL "          .accessibilityLabel(\"Appearance theme picker\")\n"),
    (274, strL "          .accessibilityLabel(\"Text output method picker\")\n"),
    (353, strL "          .accessibilityLabel(\"Audio input device picker\")\n"),
    (655, strL "          .accessibilityLabel(\"Transcription mode picker\")\n"),
    (670, strL "          .accessibilityLabel(\"Preferred locale picker\")\n") ]

/-! ### File I/O model (the run of the whole script) -/

/-- Python `f.readlines()`: split keeping each terminating newline; a final
fragment without a newline is kept too. -/
def readlinesAux : List Char → List Char → List (List Char)
  | acc, [] => if acc.isEmpty then [] else [acc.reverse]
  | acc, c :: rest =>
      if c = '\n' then ('\n' :: acc).reverse :: readlinesAux [] rest
      else readlinesAux (c :: acc) rest

/-- `f.readlines()` on whole content. -/
def readlines (s : List Char) : List (List Char) := readlinesAux [] s

/-- Python `f.writelines(lines)`: plain concatenation. -/
def writelines (ls : List (List Char)) : List Char := ls.foldr (· ++ ·) []

/-- The HUDView step (lines 4-25): the ten-rule loop over the content. -/
def hudTransform (c : List Char) : List Char := applyPatternRules c hudReplacements

/-- The MainView step (lines 29-66): three successive `re.sub` calls. -/
def mainTransform (c : List Char) : List Char :=
  reSub mainPat3 mainTmpl3 (reSub mainPat2 mainTmpl2 (reSub mainPat1 mainTmpl1 c))

/-- The SettingsView step (lines 70-88): readlines, descending-sorted guarded
inserts, writelines. -/
def settingsTransform (c : List Char) : List Char :=
  writelines (applyPositionalRules (readlines c) settingsInserts)

/-- An in-memory filesystem: path to optional content. -/
def FS : Type := String → Option (List Char)

/-- Overwrite one path of the filesystem. -/
def updateFS (fs : FS) (p : String) (c : List Char) : FS :=
  fun q => if q = p then some c else fs q

/-- Path of the first file the script processes. -/
def hudPath : String := "Sources/SpeakApp/HUDView.swift"

/-- Path of the second file the script processes. -/
def mainPath : String := "Sources/SpeakApp/MainView.swift"

/-- Path of the third file the script processes. -/
def settingsPath : String := "Sources/SpeakApp/SettingsView.swift"

/-- The whole script run, file by file in source order; a missing file makes
the read raise, aborting the rest of the run (result `true` = aborted) while
earlier writes stay in place. -/
def runScript (fs : FS) : FS × Bool :=
  match fs hudPath with
  | none => (fs, true)
  | some c1 =>
      let fs1 := updateFS fs hudPath (hudTransform c1)
      match fs1 mainPath with
      | none => (fs1, true)
      | some c2 =>
          let fs2 := updateFS fs1 mainPath (mainTransform c2)
          match fs2 settingsPath with
          | none => (fs2, true)
          | some c3 => (updateFS fs2 settingsPath (settingsTransform c3), false)

/-! ### Concrete inputs used to exercise the claims -/

/-- Indices of an insert list are weakly descending. -/
def IdxSorted (l : List (Nat × List Char)) : Prop :=
  List.Pairwise (fun a b => b.1 ≤ a.1) l

/-- A ten-line file L0..L9. -/
def demoLines : List (List Char) :=
  [strL "L0", strL "L1", strL "L2", strL "L3", strL "L4",
   strL "L5", strL "L6", strL "L7", strL "L8", strL "L9"]

/-- Inserts at indices [7, 3, 0] with distinct texts. -/
def demoInserts : List (Nat × List Char) :=
  [(7, strL "T7"), (3, strL "T3"), (0, strL "T0")]

/-- The output sequence asserted by the spec (each text *after* the line at
its index). -/
def demoClaimedOutput : List (List Char) :=
  [strL "L0", strL "T0", strL "L1", strL "L2", strL "L3", strL "T3", strL "L4",
   strL "L5", strL "L6", strL "L7", strL "T7", strL "L8", strL "L9"]

/-- The output sequence the code produces (each text *at* its index, i.e.
before the line previously there: Python `list.insert` semantics). -/
def demoActualOutput : List (List Char) :=
  [strL "T0", strL "L0", strL "L1", strL "L2", strL "T3", strL "L3", strL "L4",
   strL "L5", strL "L6", strL "T7", strL "L7", strL "L8", strL "L9"]

/-- A five-line Swift stub containing the marker
`.foregroundStyle(headlineColor)` of the first HUD rule. -/
def stubC3 : List Char :=
  strL "import SwiftUI\n  VStack(alignment: .leading)\n    Text(manager.snapshot.headline)\n      .foregroundStyle(headlineColor)\n  Spacer()\n"

/-- The accessibility-label line the first HUD rule inserts. -/
def insertedLabelLine : List Char :=
  strL "          .accessibilityLabel(\"Status: \\(manager.snapshot.headline)\")\n"

/-- The stub after the full HUD rule list (cross-checked against CPython
`re.sub` on the same input). -/
def stubC3Expected : List Char :=
  strL "import SwiftUI\n  VStack(alignment: .leading)\n    Text(manager.snapshot.headline)\n      .foregroundStyle(headlineColor)\n          .accessibilityLabel(\"Status: \\(manager.snapshot.headline)\")\n  Spacer()\n"

/-- A one-rule list replacing `a` by `b`, whose pattern cannot match its own
output: used to exercise second-pass identity. -/
def demoRules : List (RE × Tmpl) :=
  [(RE.lit 'a', [TmplItem.str (strL "b")])]

/-- A filesystem holding only the HUD file (empty), so the MainView read
fails. -/
def demoFS : FS :=
  fun p => if p = hudPath then some [] else none

/-- A filesystem holding the HUD and MainView files (empty) but no Settings
file, so the SettingsView read fails. -/
def demoFS2 : FS :=
  fun p => if p = hudPath then some [] else if p = mainPath then some [] else none

/-! ## Helper lemmas -/

theorem tryMatch_eq_none_of_noMatch {r : RE} {s : List Char} (h : noMatch r s = true) :
    tryMatch r s = none := by
  cases s with
  | nil => simpa [noMatch, Option.isNone_iff_eq_none] using h
  | cons c s' =>
      have h2 : tryMatch r (c :: s') = none ∧ noMatch r s' = true := by
        simpa [noMatch] using h
      exact h2.1

theorem noMatch_tail {r : RE} {c : Char} {s : List Char} (h : noMatch r (c :: s) = true) :
    noMatch r s = true := by
  have h2 : tryMatch r (c :: s) = none ∧ noMatch r s = true := by
    simpa [noMatch] using h
  exact h2.2

theorem subScanF_id_of_noMatch (r : RE) (t : Tmpl) :
    ∀ (fuel : Nat) (s : List Char), s.length < fuel → noMatch r s = true →
      subScanF r t fuel s = s := by
  intro fuel
  induction fuel with
  | zero => intro s h _; omega
  | succ f ih =>
      intro s hlen hnm
      have hnone := tryMatch_eq_none_of_noMatch hnm
      cases s with
      | nil => simp [subScanF, hnone]
      | cons c s' =>
          have : subScanF r t (f + 1) (c :: s') = c :: subScanF r t f s' := by
            simp [subScanF, hnone]
          rw [this, ih s' (by simpa using Nat.lt_of_succ_lt_succ hlen) (noMatch_tail hnm)]

theorem reSub_id_of_noMatch (r : RE) (t : Tmpl) (s : List Char) (h : noMatch r s = true) :
    reSub r t s = s :=
  subScanF_id_of_noMatch r t (s.length + 1) s (Nat.lt_succ_self _) h

theorem applyPatternRules_fixpoint :
    ∀ (rules : List (RE × Tmpl)) (out : List Char),
      (∀ pr ∈ rules, noMatch pr.1 out = true) → applyPatternRules out rules = out := by
  intro rules
  induction rules with
  | nil => intro out _; rfl
  | cons pr rest ih =>
      intro out h
      obtain ⟨p, t⟩ := pr
      have h1 : noMatch p out = true := h (p, t) (List.mem_cons_self _ _)
      have : reSub p t out = out := reSub_id_of_noMatch p t out h1
      calc applyPatternRules out ((p, t) :: rest)
          = applyPatternRules (reSub p t out) rest := rfl
        _ = applyPatternRules out rest := by rw [this]
        _ = out := ih out (fun q hq => h q (List.mem_cons_of_mem _ hq))

theorem idx_le_of_pairGt {x y : Nat × List Char} (h : pairGt y x = true) : x.1 ≤ y.1 := by
  simp only [pairGt, Bool.or_eq_true, Bool.and_eq_true, decide_eq_true_eq] at h
  rcases h with h | ⟨h, _⟩ <;> omega

theorem idx_ge_of_not_pairGt {x y : Nat × List Char} (h : ¬ pairGt y x = true) : y.1 ≤ x.1 := by
  simp only [pairGt, Bool.or_eq_true, Bool.and_eq_true, decide_eq_true_eq] at h
  have h1 : ¬ x.1 < y.1 := fun hlt => h (Or.inl hlt)
  omega

theorem mem_insertD {z x : Nat × List Char} :
    ∀ {l : List (Nat × List Char)}, z ∈ insertD x l → z = x ∨ z ∈ l := by
  intro l
  induction l with
  | nil => intro h; simpa [insertD] using h
  | cons y ys ih =>
      intro h
      by_cases hg : pairGt y x = true
      · rw [insertD, if_pos hg] at h
        rcases List.mem_cons.mp h with h | h
        · exact Or.inr (List.mem_cons.mpr (Or.inl h))
        · rcases ih h with h1 | h1
          · exact Or.inl h1
          · exact Or.inr (List.mem_cons.mpr (Or.inr h1))
      · rw [insertD, if_neg hg] at h
        rcases List.mem_cons.mp h with h | h
        · exact Or.inl h
        · exact Or.inr h

theorem idxSorted_insertD (x : Nat × List Char) :
    ∀ {l : List (Nat × List Char)}, IdxSorted l → IdxSorted (insertD x l) := by
  intro l
  induction l with
  | nil => intro _; simp [insertD, IdxSorted]
  | cons y ys ih =>
      intro h
      have hcons := (List.pairwise_cons).mp h
      by_cases hg : pairGt y x = true
      · have htail : IdxSorted (insertD x ys) := ih hcons.2
        have hhead : ∀ z ∈ insertD x ys, z.1 ≤ y.1 := by
          intro z hz
          rcases mem_insertD hz with h1 | h1
          · exact h1 ▸ idx_le_of_pairGt hg
          · exact hcons.1 z h1
        rw [insertD, if_pos hg]
        exact (List.pairwise_cons).mpr ⟨hhead, htail⟩
      · have hyx : y.1 ≤ x.1 := idx_ge_of_not_pairGt hg
        have hhead : ∀ z ∈ y :: ys, z.1 ≤ x.1 := by
          intro z hz
          rcases List.mem_cons.mp hz with h1 | h1
          · rw [h1]; exact hyx
          · exact Nat.le_trans (hcons.1 z h1) hyx
        rw [insertD, if_neg hg]
        exact (List.pairwise_cons).mpr ⟨hhead, h⟩

theorem perm_insertD (x : Nat × List Char) :
    ∀ (l : List (Nat × List Char)), List.Perm (insertD x l) (x :: l) := by
  intro l
  induction l with
  | nil => simp [insertD]
  | cons y ys ih =>
      by_cases hg : pairGt y x = true
      · rw [insertD, if_pos hg]
        exact (ih.cons y).trans (List.Perm.swap x y ys)
      · rw [insertD, if_neg hg]

theorem sortDesc_perm : ∀ (l : List (Nat × List Char)), List.Perm (sortDesc l) l := by
  intro l
  induction l with
  | nil => simp [sortDesc]
  | cons x xs ih =>
      exact (perm_insertD x (sortDesc xs)).trans (ih.cons x)

theorem sortDesc_idxSorted : ∀ (l : List (Nat × List Char)), IdxSorted (sortDesc l) := by
  intro l
  induction l with
  | nil => simp [sortDesc, IdxSorted]
  | cons x xs ih => exact idxSorted_insertD x ih

theorem length_pyInsert (i : Nat) (x : List Char) (l : List (List Char)) :
    (pyInsert i x l).length = l.length + 1 := by
  simp [pyInsert]
  omega

theorem applyInserts_eq_orig_small :
    ∀ (ins : List (Nat × List Char)) (lines : List (List Char)) (n : Nat),
      (∀ p ∈ ins, p.1 < n) → n ≤ lines.length →
      applyInserts lines ins = applyInsertsOrig n lines ins := by
  intro ins
  induction ins with
  | nil => intro lines n _ _; rfl
  | cons p rest ih =>
      intro lines n hall hn
      obtain ⟨i, t⟩ := p
      have hi : i < n := hall (i, t) (List.mem_cons_self _ _)
      have hilen : i < lines.length := Nat.lt_of_lt_of_le hi hn
      calc applyInserts lines ((i, t) :: rest)
          = applyInserts (pyInsert i t lines) rest := by simp [applyInserts, hilen]
        _ = applyInsertsOrig n (pyInsert i t lines) rest := by
            refine ih (pyInsert i t lines) n (fun q hq => hall q (List.mem_cons_of_mem _ hq)) ?_
            rw [length_pyInsert]; omega
        _ = applyInsertsOrig n lines ((i, t) :: rest) := by simp [applyInsertsOrig, hi]

theorem applyInserts_sorted_eq_orig :
    ∀ (ins : List (Nat × List Char)) (lines : List (List Char)),
      IdxSorted ins → applyInserts lines ins = applyInsertsOrig lines.length lines ins := by
  intro ins
  induction ins with
  | nil => intro lines _; rfl
  | cons p rest ih =>
      intro lines h
      obtain ⟨i, t⟩ := p
      have hcons := (List.pairwise_cons).mp h
      by_cases hi : i < lines.length
      · calc applyInserts lines ((i, t) :: rest)
            = applyInserts (pyInsert i t lines) rest := by simp [applyInserts, hi]
          _ = applyInsertsOrig lines.length (pyInsert i t lines) rest := by
              refine applyInserts_eq_orig_small rest (pyInsert i t lines) lines.length ?_ ?_
              · intro q hq
                exact Nat.lt_of_le_of_lt (hcons.1 q hq) hi
              · rw [length_pyInsert]; omega
          _ = applyInsertsOrig lines.length lines ((i, t) :: rest) := by
              simp [applyInsertsOrig, hi]
      · calc applyInserts lines ((i, t) :: rest)
            = applyInserts lines rest := by simp [applyInserts, hi]
          _ = applyInsertsOrig lines.length lines rest := ih lines hcons.2
          _ = applyInsertsOrig lines.length lines ((i, t) :: rest) := by
              simp [applyInsertsOrig, hi]

theorem sublist_pyInsert (i : Nat) (x : List Char) (l : List (List Char)) :
    List.Sublist l (pyInsert i x l) := by
  conv_lhs => rw [← List.take_append_drop i l]
  exact (List.sublist_cons_self x (l.drop i)).append_left (l.take i)

theorem sublist_applyInsertsOrig (n : Nat) :
    ∀ (ins : List (Nat × List Char)) (lines : List (List Char)),
      List.Sublist lines (applyInsertsOrig n lines ins) := by
  intro ins
  induction ins with
  | nil => intro lines; exact List.Sublist.refl lines
  | cons p rest ih =>
      intro lines
      obtain ⟨i, t⟩ := p
      by_cases hi : i < n
      · have h1 : applyInsertsOrig n lines ((i, t) :: rest) =
            applyInsertsOrig n (pyInsert i t lines) rest := by simp [applyInsertsOrig, hi]
        rw [h1]
        exact (sublist_pyInsert i t lines).trans (ih (pyInsert i t lines))
      · have h1 : applyInsertsOrig n lines ((i, t) :: rest) =
            applyInsertsOrig n lines rest := by simp [applyInsertsOrig, hi]
        rw [h1]
        exact ih lines

theorem length_applyInsertsOrig (n : Nat) :
    ∀ (ins : List (Nat × List Char)) (lines : List (List Char)),
      (applyInsertsOrig n lines ins).length =
        lines.length + ins.countP (fun p => decide (p.1 < n)) := by
  intro ins
  induction ins with
  | nil => intro lines; simp [applyInsertsOrig, List.countP_nil]
  | cons p rest ih =>
      intro lines
      obtain ⟨i, t⟩ := p
      by_cases hi : i < n
      · have : applyInsertsOrig n lines ((i, t) :: rest) =
            applyInsertsOrig n (pyInsert i t lines) rest := by simp [applyInsertsOrig, hi]
        rw [this, ih (pyInsert i t lines), length_pyInsert,
          List.countP_cons_of_pos _ _ (by simpa using hi)]
        omega
      · have : applyInsertsOrig n lines ((i, t) :: rest) =
            applyInsertsOrig n lines rest := by simp [applyInsertsOrig, hi]
        rw [this, ih lines, List.countP_cons_of_neg _ _ (by simpa using hi)]

/-! ## Claims -/

/-- Claim C1, counterexample: on lines L0..L9 with inserts at [7, 3, 0], the
code does NOT produce the spec's sequence L0, T0, L1, L2, L3, T3, ...
(`list.insert` places the text before, not after, the line at the index). -/
theorem C1_counterexample :
    applyPositionalRules demoLines demoInserts ≠ demoClaimedOutput := by
  decide

/-- Claim C1, amended: each in-range insert places its text at the given
index, i.e. immediately *before* the line previously at that position; for
lines L0..L9 and inserts at [7, 3, 0] the output is
T0, L0, L1, L2, T3, L3, L4, L5, L6, T7, L7, L8, L9. -/
theorem C1_amended_insert_before :
    applyPositionalRules demoLines demoInserts = demoActualOutput := by
  decide

/-- Claim C2: the pattern-rule loop applies the rules sequentially in list
order, each a global substitution on the current content; the result is the
left fold of single-rule substitution over the rule list. -/
theorem C2_fold_pattern_rules :
    ∀ (content : List Char) (rules : List (RE × Tmpl)),
      applyPatternRules content rules =
        rules.foldl (fun c pr => reSub pr.1 pr.2 c) content := by
  intro content rules
  induction rules generalizing content with
  | nil => rfl
  | cons pr rest ih => exact (congrArg _ rfl).trans (ih (reSub pr.1 pr.2 content))

/-- Claim C4: a pattern rule whose pattern has no match anywhere in the
content is a silent no-op: the content comes back byte-for-byte identical. -/
theorem C4_no_match_no_op (r : RE) (t : Tmpl) (s : List Char)
    (h : noMatch r s = true) : reSub r t s = s :=
  reSub_id_of_noMatch r t s h

/-- Witness for C4: the pattern `q` matches nowhere in `x a b y`, and the
substitution leaves that content unchanged. -/
theorem C4_no_match_no_op_witness :
    reSub (RE.lit 'q') [TmplItem.str (strL "Z")] (strL "x a b y") = strL "x a b y" :=
  C4_no_match_no_op (RE.lit 'q') [TmplItem.str (strL "Z")] (strL "x a b y") (by decide)

/-- Claim C5: an insert whose index is not below the current line count is
silently skipped, and in particular an insert at index 50 into the ten-line
file leaves the line sequence unchanged. -/
theorem C5_out_of_range_skip (lines : List (List Char)) (i : Nat) (t : List Char)
    (rest : List (Nat × List Char)) (h : ¬ i < lines.length) :
    applyInserts lines ((i, t) :: rest) = applyInserts lines rest ∧
      applyPositionalRules demoLines [(50, strL "X")] = demoLines := by
  constructor
  · simp [applyInserts, h]
  · decide

/-- Witness for C5 at index 50 against the ten-line file. -/
theorem C5_out_of_range_skip_witness :
    applyInserts demoLines [(50, strL "X")] = applyInserts demoLines [] ∧
      applyPositionalRules demoLines [(50, strL "X")] = demoLines :=
  C5_out_of_range_skip demoLines 50 (strL "X") [] (by decide)

/-- Claim C6: running the same rule list a second time on the first pass's
output changes nothing, provided no pattern matches the patched content. -/
theorem C6_second_pass_identity (content : List Char) (rules : List (RE × Tmpl))
    (h : ∀ pr ∈ rules, noMatch pr.1 (applyPatternRules content rules) = true) :
    applyPatternRules (applyPatternRules content rules) rules =
      applyPatternRules content rules :=
  applyPatternRules_fixpoint rules (applyPatternRules content rules) h

/-- Witness for C6: the rule `a` → `b` no longer matches after the first
pass on content `a`, so the second pass is the identity. -/
theorem C6_second_pass_identity_witness :
    applyPatternRules (applyPatternRules (strL "a") demoRules) demoRules =
      applyPatternRules (strL "a") demoRules :=
  C6_second_pass_identity (strL "a") demoRules (by decide)

/-- Claim C8: both operations are deterministic (equal inputs give equal
outputs) and pattern rules are applied in exactly list order: the head rule
is applied to the current content before the rest of the list. -/
theorem C8_deterministic (c₁ c₂ : List Char) (rs₁ rs₂ : List (RE × Tmpl))
    (l₁ l₂ : List (List Char)) (i₁ i₂ : List (Nat × List Char))
    (hc : c₁ = c₂) (hr : rs₁ = rs₂) (hl : l₁ = l₂) (hi : i₁ = i₂) :
    applyPatternRules c₁ rs₁ = applyPatternRules c₂ rs₂ ∧
      applyPositionalRules l₁ i₁ = applyPositionalRules l₂ i₂ ∧
      ∀ (p : RE) (t : Tmpl) (rest : List (RE × Tmpl)) (c : List Char),
        applyPatternRules c ((p, t) :: rest) = applyPatternRules (reSub p t c) rest := by
  subst hc; subst hr; subst hl; subst hi
  exact ⟨rfl, rfl, fun _ _ _ _ => rfl⟩

/-- Claim C9: although each insert is guarded by a comparison against the
current, possibly already-grown line count, applying the inserts in
descending index order makes that guard equivalent to a comparison against
the original file's line count: the run equals the variant whose guard is
fixed at the original length. -/
theorem C9_applied_iff_original_index :
    ∀ (lines : List (List Char)) (ins : List (Nat × List Char)),
      applyPositionalRules lines ins =
        applyInsertsOrig lines.length lines (sortDesc ins) :=
  fun lines ins => applyInserts_sorted_eq_orig (sortDesc ins) lines (sortDesc_idxSorted ins)

/-- Claim C10: the positional operation only adds lines: the original lines
survive unmodified and in order (as a sublist of the output), and the output
length is the original length plus the number of in-range inserts. -/
theorem C10_lines_preserved_length :
    ∀ (lines : List (List Char)) (ins : List (Nat × List Char)),
      List.Sublist lines (applyPositionalRules lines ins) ∧
        (applyPositionalRules lines ins).length =
          lines.length + ins.countP (fun p => decide (p.1 < lines.length)) := by
  intro lines ins
  have heq : applyPositionalRules lines ins =
      applyInsertsOrig lines.length lines (sortDesc ins) :=
    applyInserts_sorted_eq_orig (sortDesc ins) lines (sortDesc_idxSorted ins)
  constructor
  · rw [heq]
    exact sublist_applyInsertsOrig lines.length (sortDesc ins) lines
  · rw [heq, length_applyInsertsOrig lines.length (sortDesc ins) lines,
      (sortDesc_perm ins).countP_eq]

set_option maxRecDepth 400000 in
/-- Claim C3: on the five-line stub containing the marker
`.foregroundStyle(headlineColor)` (the marker is its fourth line), running the
full HUD rule list yields exactly the expected content: the accessibility
label line sits immediately after the marker line, and the line count grows
by the number of rules that matched (here one). -/
theorem C3_end_to_end_stub :
    applyPatternRules stubC3 hudReplacements = stubC3Expected ∧
      (readlines stubC3).get? 3 = some (strL "      .foregroundStyle(headlineColor)\n") ∧
      readlines stubC3Expected =
        (readlines stubC3).take 4 ++ insertedLabelLine :: (readlines stubC3).drop 4 ∧
      (readlines (applyPatternRules stubC3 hudReplacements)).length =
        (readlines stubC3).length + matchedCount stubC3 hudReplacements := by
  exact ⟨by decide, by decide, by decide, by decide⟩

/-- Claim C7: whichever later file's read fails, every file processed before
it has already been fully transformed and written (on disk exactly its own
rule list applied to its prior content), every file after the failing one is
untouched, and the run aborts with the error — no rollback.  First conjunct:
the MainView read fails (HUD already written, Settings untouched).  Second
conjunct: the SettingsView read fails (both HUD and MainView already
written). -/
theorem C7_partial_failure :
    (∀ (fs : FS) (c : List Char), fs hudPath = some c → fs mainPath = none →
      runScript fs = (updateFS fs hudPath (hudTransform c), true) ∧
        (runScript fs).1 hudPath = some (hudTransform c) ∧
        (runScript fs).1 mainPath = none ∧
        (runScript fs).1 settingsPath = fs settingsPath ∧
        (runScript fs).2 = true) ∧
    (∀ (fs : FS) (c c2 : List Char), fs hudPath = some c → fs mainPath = some c2 →
      fs settingsPath = none →
      runScript fs =
          (updateFS (updateFS fs hudPath (hudTransform c)) mainPath (mainTransform c2), true) ∧
        (runScript fs).1 hudPath = some (hudTransform c) ∧
        (runScript fs).1 mainPath = some (mainTransform c2) ∧
        (runScript fs).1 settingsPath = none ∧
        (runScript fs).2 = true) := by
  constructor
  · intro fs c h1 h2
    have hmain : updateFS fs hudPath (hudTransform c) mainPath = none := by
      simp only [updateFS]
      rw [if_neg (by decide), h2]
    have hrun : runScript fs = (updateFS fs hudPath (hudTransform c), true) := by
      simp only [runScript, h1, hmain]
    refine ⟨hrun, ?_, ?_, ?_, ?_⟩
    · rw [hrun]
      simp [updateFS]
    · rw [hrun]
      exact hmain
    · rw [hrun]
      simp only [updateFS]
      rw [if_neg (by decide)]
    · rw [hrun]
  · intro fs c c2 h1 h2 h3
    have hmain : updateFS fs hudPath (hudTransform c) mainPath = some c2 := by
      simp only [updateFS]
      rw [if_neg (by decide), h2]
    have hsett : updateFS (updateFS fs hudPath (hudTransform c)) mainPath
        (mainTransform c2) settingsPath = none := by
      simp only [updateFS]
      rw [if_neg (by decide), if_neg (by decide), h3]
    have hrun : runScript fs =
        (updateFS (updateFS fs hudPath (hudTransform c)) mainPath (mainTransform c2), true) := by
      simp only [runScript, h1, hmain, hsett]
    refine ⟨hrun, ?_, ?_, ?_, ?_⟩
    · rw [hrun]
      simp only [updateFS]
      rw [if_neg (by decide)]
      simp
    · rw [hrun]
      simp [updateFS]
    · rw [hrun]
      exact hsett
    · rw [hrun]

/-- Witness for C7: a filesystem holding only an (empty) HUD file for the
MainView-failure case, and one holding empty HUD and MainView files but no
Settings file for the SettingsView-failure case. -/
theorem C7_partial_failure_witness :
    (runScript demoFS = (updateFS demoFS hudPath (hudTransform []), true) ∧
      (runScript demoFS).1 hudPath = some (hudTransform []) ∧
      (runScript demoFS).1 mainPath = none ∧
      (runScript demoFS).1 settingsPath = demoFS settingsPath ∧
      (runScript demoFS).2 = true) ∧
    (runScript demoFS2 =
        (updateFS (updateFS demoFS2 hudPath (hudTransform [])) mainPath (mainTransform []), true) ∧
      (runScript demoFS2).1 hudPath = some (hudTransform []) ∧
      (runScript demoFS2).1 mainPath = some (mainTransform []) ∧
      (runScript demoFS2).1 settingsPath = none ∧
      (runScript demoFS2).2 = true) :=
  ⟨C7_partial_failure.1 demoFS [] (by decide) (by decide),
   C7_partial_failure.2 demoFS2 [] [] (by decide) (by decide) (by decide)⟩

/-- Witness for C8 at concrete inputs. -/
theorem C8_deterministic_witness :
    applyPatternRules (strL "a") demoRules = applyPatternRules (strL "a") demoRules ∧
      applyPositionalRules demoLines demoInserts = applyPositionalRules demoLines demoInserts ∧
      ∀ (p : RE) (t : Tmpl) (rest : List (RE × Tmpl)) (c : List Char),
        applyPatternRules c ((p, t) :: rest) = applyPatternRules (reSub p t c) rest :=
  C8_deterministic (strL "a") (strL "a") demoRules demoRules demoLines demoLines
    demoInserts demoInserts rfl rfl rfl rfl
